import Mathlib

/-!
Shallow embedding of the core audit logic of `opera-audit`
(`src/opera_accountability/{duplicates.py, accountability.py, cmr.py}`),
together with theorems settling the specification claims about it.

Python dicts are embedded as insertion-ordered association lists, the
regex engine (`re`) and timestamp parser (`datetime.strptime` /
`fromisoformat`) as abstract functions carried inside the per-product
configuration structure, and machine integers as `Nat`/`Int`.
-/

namespace OperaAudit

/-- One CMR granule record as consumed by `detect_duplicates`
(`g['umm']['GranuleUR']`). -/
structure Granule where
  granuleUR : String
deriving DecidableEq

/-- Per-date counters kept in the `by_date` defaultdict of
`detect_duplicates` (`{'total': 0, 'unique': 0, 'duplicates': 0}`). -/
structure Counts where
  total : Nat
  unique : Nat
  duplicates : Nat
deriving DecidableEq

/-- Per-product configuration (`CONFIG['products'][product]`), with the
compiled regex `pattern.match` + `groupdict` embedded as the abstract
function `pmatch` (`none` models a failed match), and
`datetime.strptime(·, aggregation_format).date().isoformat()` embedded as
the abstract function `strpDate`. -/
structure ProductConfig where
  pmatch : String → Option (List (String × String))
  unique_fields : List String
  aggregation_field : String
  strpDate : String → String
  creation_field : Option String

/-- Python's `<` on strings: lexicographic comparison of the character
(code point) sequences. -/
def ltChars : List Char → List Char → Bool
  | [], [] => false
  | [], _ :: _ => true
  | _ :: _, [] => false
  | a :: as, b :: bs => if a < b then true else if b < a then false else ltChars as bs

/-- Python's `a < b` on strings. -/
def strLt (a b : String) : Bool := ltChars a.data b.data

/-- Lookup of a named capture group in a `groupdict`
(`fields[f]`, resp. `fields.get(f, '')`). -/
def getField (fields : List (String × String)) (k : String) : String :=
  ((fields.find? (fun p => p.1 == k)).map Prod.snd).getD ""

/-- `unique_granules[unique_id]` lookup: the Python dict
`{unique_id_tuple: (granule_id, creation_ts)}` as an association list. -/
def lookupKey (m : List (List String × (String × String))) (k : List String) :
    Option (String × String) :=
  (m.find? (fun p => p.1 == k)).map Prod.snd

/-- `unique_granules[unique_id] = v` when the key is already present
(dict update in place, insertion order kept). -/
def setKey (m : List (List String × (String × String))) (k : List String)
    (v : String × String) : List (List String × (String × String)) :=
  m.map (fun p => if p.1 == k then (p.1, v) else p)

/-- `by_date[d]['...'] += 1` on a `defaultdict`: update the entry for `d`
in place if present, otherwise append a fresh zero-initialised entry and
update it. -/
def bumpWith (f : Counts → Counts) (m : List (String × Counts)) (d : String) :
    List (String × Counts) :=
  if (m.find? (fun p => p.1 == d)).isSome then
    m.map (fun p => if p.1 == d then (p.1, f p.2) else p)
  else
    m ++ [(d, f ⟨0, 0, 0⟩)]

def incTotal (c : Counts) : Counts := { c with total := c.total + 1 }
def incUnique (c : Counts) : Counts := { c with unique := c.unique + 1 }
def incDuplicates (c : Counts) : Counts := { c with duplicates := c.duplicates + 1 }

/-- Insertion into a sorted list, for embedding Python's `sorted`. -/
def insertBy (lt : α → α → Bool) (x : α) : List α → List α
  | [] => [x]
  | y :: ys => if lt x y then x :: y :: ys else y :: insertBy lt x ys

/-- Python's `sorted` (only the permutation property matters here). -/
def sortBy (lt : α → α → Bool) (l : List α) : List α :=
  l.foldr (insertBy lt) []

/-- Mutable state of the loop body of `detect_duplicates`. -/
structure DupState where
  unique_granules : List (List String × (String × String))
  all_duplicates : List String
  by_date : List (String × Counts)

/-- The loop body of `detect_duplicates` (duplicates.py lines 58-103),
processing one `granule_id`. -/
def processGranule (cfg : ProductConfig) (st : DupState) (granule_id : String) :
    DupState :=
  match cfg.pmatch granule_id with
  | none => st
  | some fields =>
    let unique_id := cfg.unique_fields.map (fun f => getField fields f)
    let agg_date := cfg.strpDate (getField fields cfg.aggregation_field)
    let st1 : DupState := { st with by_date := bumpWith incTotal st.by_date agg_date }
    match lookupKey st1.unique_granules unique_id with
    | some existing =>
      let st2 : DupState :=
        { st1 with by_date := bumpWith incDuplicates st1.by_date agg_date }
      match cfg.creation_field with
      | some cf =>
        let current_creation_ts := getField fields cf
        if strLt existing.2 current_creation_ts then
          { st2 with
            all_duplicates := st2.all_duplicates ++ [existing.1]
            unique_granules :=
              setKey st2.unique_granules unique_id (granule_id, current_creation_ts) }
        else
          { st2 with all_duplicates := st2.all_duplicates ++ [granule_id] }
      | none =>
        { st2 with all_duplicates := st2.all_duplicates ++ [granule_id] }
    | none =>
      let creation_ts :=
        match cfg.creation_field with
        | some cf => getField fields cf
        | none => ""
      { st1 with
        unique_granules := st1.unique_granules ++ [(unique_id, (granule_id, creation_ts))]
        by_date := bumpWith incUnique st1.by_date agg_date }

/-- Result dictionary of `detect_duplicates`. -/
structure DupResult where
  total : Nat
  unique : Nat
  duplicates : Nat
  duplicate_list : List String
  by_date : List (String × Counts)
deriving DecidableEq

/-- Final loop state of `detect_duplicates` on a list of granule ids. -/
def detectState (cfg : ProductConfig) (granule_ids : List String) : DupState :=
  granule_ids.foldl (processGranule cfg) ⟨[], [], []⟩

/-- `detect_duplicates(cmr_granules, product)` (duplicates.py lines 14-127):
extracts `GranuleUR` from each granule, runs the grouping loop, and packs
the result: `total` counts all inputs, `unique` the distinct group keys,
`duplicate_list` the sorted duplicates, `by_date` the sorted per-date
buckets. -/
def detect_duplicates (cfg : ProductConfig) (cmr_granules : List Granule) :
    DupResult :=
  let granule_ids := cmr_granules.map Granule.granuleUR
  let st := detectState cfg granule_ids
  { total := granule_ids.length
    unique := st.unique_granules.length
    duplicates := st.all_duplicates.length
    duplicate_list := sortBy strLt st.all_duplicates
    by_date := sortBy (fun p q => strLt p.1 q.1) st.by_date }

/-- Number of input records whose identifier matches the schema's pattern. -/
def matchedCount (cfg : ProductConfig) (cmr_granules : List Granule) : Nat :=
  (cmr_granules.filter (fun g => (cfg.pmatch g.granuleUR).isSome)).length

/-! ## Accountability reconciler (accountability.py) -/

/-- One DSWx-HLS output granule as consumed by `analyze_accountability`
(`umm.GranuleUR` and `umm.InputGranules`). -/
structure DswxGranule where
  granuleUR : String
  inputGranules : List String
deriving DecidableEq

/-- One HLS input granule as consumed by `analyze_accountability`
(`umm.GranuleUR`, `umm.TemporalExtent.RangeDateTime.BeginningDateTime`,
and the `ShortName`s of `umm.Platforms`). -/
structure HlsGranule where
  granuleUR : String
  beginningDateTime : String
  platforms : List String
deriving DecidableEq

/-- Configuration pieces of `analyze_accountability` that live in
`config.yaml` / external libraries: `hlsMatch` embeds
`hls_pattern.match` for the configured HLS identifier pattern, and
`beforeCutoff` embeds
`datetime.fromisoformat(s.replace('Z', '+00:00')) < L9_CUTOFF` for the
configured `l9_cutoff_date`. -/
structure AccConfig where
  hlsMatch : String → Bool
  beforeCutoff : String → Bool

/-- The HLS band/Fmask suffix regex of accountability.py line 62,
`[.](B[A-Za-z0-9]{2}|Fmask)[.]tif$`, applied to a reversed character
list; `re.sub(..., '', name)` strips the suffix when the name ends with
`.Bxy.tif` (`x`, `y` alphanumeric) or `.Fmask.tif`, else leaves the name
unchanged. -/
def stripBandSuffixL (cs : List Char) : List Char :=
  match cs.reverse with
  | c0 :: c1 :: c2 :: c3 :: c4 :: c5 :: c6 :: c7 :: rest =>
    if c0 = 'f' ∧ c1 = 'i' ∧ c2 = 't' ∧ c3 = '.' ∧ c4 = 'k' ∧ c5 = 's'
        ∧ c6 = 'a' ∧ c7 = 'm' ∧ rest.take 2 = ['F', '.'] then
      (rest.drop 2).reverse
    else if c0 = 'f' ∧ c1 = 'i' ∧ c2 = 't' ∧ c3 = '.' ∧ c6 = 'B' ∧ c7 = '.'
        ∧ c5.isAlphanum ∧ c4.isAlphanum then
      rest.reverse
    else cs
  | _ => cs

/-- `re.sub(hls_suffix_pattern, '', name)` on strings. -/
def stripBandSuffix (name : String) : String :=
  ⟨stripBandSuffixL name.data⟩

/-- `os.path.basename`: the part of the path after the last `/`. -/
def basename (p : String) : String :=
  ⟨(p.data.reverse.takeWhile (fun c => c != '/')).reverse⟩

/-- `hls_to_dswx[input_name].append(granule_id)` on a
`defaultdict(list)`: append to the entry if the key is present, else
create the key with a one-element list. -/
def addInput (m : List (String × List String)) (k v : String) :
    List (String × List String) :=
  if (m.find? (fun p => p.1 == k)).isSome then
    m.map (fun p => if p.1 == k then (p.1, p.2 ++ [v]) else p)
  else
    m ++ [(k, [v])]

/-- First phase of `analyze_accountability` (lines 64-81): for each DSWx
granule and each of its `InputGranules` entries, strip the path and the
band suffix and, when the result matches the HLS pattern, record the
DSWx granule id against that canonical HLS input. -/
def mapInputs (cfg : AccConfig) (dswx : List DswxGranule) :
    List (String × List String) :=
  dswx.foldl
    (fun m g =>
      g.inputGranules.foldl
        (fun m input_file =>
          let input_name := stripBandSuffix (basename input_file)
          if cfg.hlsMatch input_name then addInput m input_name g.granuleUR
          else m)
        m)
    []

/-- Second phase of `analyze_accountability` (lines 87-105), one HLS
granule: skip it entirely when `'LANDSAT-9' in platforms` and its
`BeginningDateTime` is strictly before the L9 cutoff; otherwise append
it to `filtered_hls` and default its mapping entry to `[]`. -/
def hlsStep (cfg : AccConfig)
    (st : List String × List (String × List String)) (g : HlsGranule) :
    List String × List (String × List String) :=
  if g.platforms.contains "LANDSAT-9" && cfg.beforeCutoff g.beginningDateTime then
    st
  else
    let filtered := st.1 ++ [g.granuleUR]
    let m :=
      if (st.2.find? (fun p => p.1 == g.granuleUR)).isSome then st.2
      else st.2 ++ [(g.granuleUR, [])]
    (filtered, m)

/-- The pair (`filtered_hls`, `hls_to_dswx`) after both phases of
`analyze_accountability`. -/
def accState (cfg : AccConfig) (dswx : List DswxGranule) (hls : List HlsGranule) :
    List String × List (String × List String) :=
  hls.foldl (hlsStep cfg) ([], mapInputs cfg dswx)

/-- Result dictionary of `analyze_accountability`; `by_date` is the
always-empty dict of accountability.py line 115. Counts are `Int`
because `actual` is computed by Python integer subtraction. -/
structure AccResult where
  expected : Int
  actual : Int
  missing : List String
  missing_count : Int
  by_date : List (String × Counts)
deriving DecidableEq

/-- `analyze_accountability(dswx_granules, hls_granules)`
(accountability.py lines 30-123). -/
def analyze_accountability (cfg : AccConfig) (dswx : List DswxGranule)
    (hls : List HlsGranule) : AccResult :=
  let st := accState cfg dswx hls
  let filtered_hls := st.1
  let missing := (st.2.filter (fun p => p.2.isEmpty)).map Prod.fst
  { expected := filtered_hls.length
    actual := (filtered_hls.length : Int) - missing.length
    missing := sortBy strLt missing
    missing_count := missing.length
    by_date := [] }

/-! ## CMR client retry behaviour (cmr.py) -/

/-- `_fatal_code` (cmr.py lines 22-24): an HTTP error is fatal (stops
retrying) exactly when its status code is not one of
401, 418, 429, 500, 502, 503, 504. -/
def fatal_code (status : Nat) : Bool :=
  !([401, 418, 429, 500, 502, 503, 504].contains status)

/-- One outcome of attempting the HTTP GET inside `_do_cmr_request`:
either a page of granule ids plus the optional `CMR-Search-After`
continuation token, or a raised `RequestException` carrying the response
status code (`none` models a network-level failure with no response). -/
inductive Attempt where
  | success : List String → Option String → Attempt
  | failure : Option Nat → Attempt
deriving DecidableEq

/-- Observable outcome of the `backoff`-wrapped `_do_cmr_request`:
a returned page, a propagated exception, or `pending` when the supplied
attempt trace ran out while the wrapper would still retry. -/
inductive CmrOutcome where
  | page : List String → Option String → CmrOutcome
  | raised : Option Nat → CmrOutcome
  | pending : CmrOutcome
deriving DecidableEq

/-- The give-up predicate as actually evaluated by the `backoff`
decorator: `_fatal_code` reads `err.response.status_code`, so an
exception with no response (`err.response is None`, a network-level
failure) makes `_fatal_code` itself raise `AttributeError`, which
propagates — observably, no retry happens. -/
def giveupOn : Option Nat → Bool
  | none => true
  | some s => fatal_code s

/-- The retry loop of `@backoff.on_exception(backoff.constant, ...,
max_time=300, giveup=_fatal_code, interval=15)` around
`_do_cmr_request`, evaluated over a trace of attempt outcomes: a success
returns its page; a failure is re-raised when the give-up predicate
holds or the elapsed time has reached `max_time`, and otherwise retried
after a constant 15-second wait (capped so the total elapsed time never
exceeds 300 seconds, as `backoff` caps each wait at
`max_time - elapsed`). -/
def retryRequest : List Attempt → Nat → CmrOutcome
  | [], _ => .pending
  | .success gs tok :: _, _ => .page gs tok
  | .failure st :: rest, elapsed =>
    if giveupOn st then .raised st
    else if 300 ≤ elapsed then .raised st
    else retryRequest rest (elapsed + min 15 (300 - elapsed))

/-! ## Sample configurations used by concrete counterexamples and
witnesses -/

/-- A product configuration whose pattern matches no identifier. -/
def noMatchConfig : ProductConfig :=
  { pmatch := fun _ => none
    unique_fields := []
    aggregation_field := "d"
    strpDate := fun _ => "2026-01-01"
    creation_field := none }

/-- A product configuration whose pattern matches every identifier and
groups all of them under one key, with the identifier itself as the
creation timestamp. -/
def oneKeyConfig : ProductConfig :=
  { pmatch := fun s => some [("k", "K"), ("ts", s), ("d", "20260101")]
    unique_fields := ["k"]
    aggregation_field := "d"
    strpDate := fun _ => "2026-01-01"
    creation_field := some "ts" }

/-- A product configuration grouping everything under one key with a
constant creation timestamp (all records tie). -/
def tieConfig : ProductConfig :=
  { pmatch := fun _ => some [("k", "K"), ("ts", "T"), ("d", "20260101")]
    unique_fields := ["k"]
    aggregation_field := "d"
    strpDate := fun _ => "2026-01-01"
    creation_field := some "ts" }

/-- An accountability configuration: HLS identifiers start with `HLS.`,
and the cutoff comparison is a lexicographic comparison against a fixed
instant (the observed timestamp strings are fixed-width). -/
def accConfigW : AccConfig :=
  { hlsMatch := fun s => decide (s.data.take 4 = ['H', 'L', 'S', '.'])
    beforeCutoff := fun s => strLt s "2025-10-01" }

/-! ## Sorting lemmas -/

theorem insertBy_perm (lt : α → α → Bool) (x : α) (l : List α) :
    (insertBy lt x l).Perm (x :: l) := by
  induction l with
  | nil => exact List.Perm.refl _
  | cons y ys ih =>
    simp only [insertBy]
    split
    · exact List.Perm.refl _
    · exact (ih.cons y).trans (List.Perm.swap x y ys)

theorem sortBy_perm (lt : α → α → Bool) (l : List α) :
    (sortBy lt l).Perm l := by
  induction l with
  | nil => exact List.Perm.refl _
  | cons x xs ih => exact (insertBy_perm lt x (sortBy lt xs)).trans (ih.cons x)

theorem sortBy_length (lt : α → α → Bool) (l : List α) :
    (sortBy lt l).length = l.length :=
  (sortBy_perm lt l).length_eq

theorem mem_sortBy (lt : α → α → Bool) (l : List α) (x : α) :
    x ∈ sortBy lt l ↔ x ∈ l :=
  (sortBy_perm lt l).mem_iff

/-! ## Counting invariant of the duplicate detector -/

/-- Each processed granule either fails the pattern (state unchanged) or
adds exactly one entry overall: a new surviving key or a new duplicate. -/
theorem processGranule_count (cfg : ProductConfig) (st : DupState) (g : String) :
    (processGranule cfg st g).unique_granules.length
      + (processGranule cfg st g).all_duplicates.length
    = st.unique_granules.length + st.all_duplicates.length
      + (if (cfg.pmatch g).isSome then 1 else 0) := by
  cases hm : cfg.pmatch g with
  | none => simp [processGranule, hm]
  | some fields =>
    simp only [processGranule, hm, Option.isSome_some, if_true]
    cases hk : lookupKey st.unique_granules
        (cfg.unique_fields.map (fun f => getField fields f)) with
    | some existing =>
      cases hcf : cfg.creation_field with
      | some cf =>
        by_cases hlt : strLt existing.2 (getField fields cf) = true
        · simp [hlt, setKey]
          omega
        · simp [hlt]
          omega
      | none =>
        simp
        omega
    | none =>
      simp
      omega

/-- Over any starting state, the loop adds one entry (survivor or
duplicate) per pattern-matching granule id. -/
theorem foldl_count (cfg : ProductConfig) (ids : List String) (st : DupState) :
    (ids.foldl (processGranule cfg) st).unique_granules.length
      + (ids.foldl (processGranule cfg) st).all_duplicates.length
    = st.unique_granules.length + st.all_duplicates.length
      + (ids.filter (fun g => (cfg.pmatch g).isSome)).length := by
  induction ids generalizing st with
  | nil => simp
  | cons g ids ih =>
    simp only [List.foldl_cons, List.filter_cons]
    rw [ih]
    have h := processGranule_count cfg st g
    cases hm : (cfg.pmatch g).isSome <;> simp [hm] at h ⊢ <;> omega

/-- The matched-record count equals survivors plus duplicates. -/
theorem detect_matched_eq (cfg : ProductConfig) (gs : List Granule) :
    matchedCount cfg gs
    = (detect_duplicates cfg gs).unique
      + (detect_duplicates cfg gs).duplicate_list.length := by
  simp only [detect_duplicates, detectState, matchedCount, sortBy_length]
  rw [foldl_count]
  simp [List.filter_map, Function.comp_def]

/-- C1: for every list of granule records and every registered product
schema, `detect_duplicates` returns a result in which the number of
input records whose identifier matches the schema's pattern equals the
returned unique count plus the length of `duplicate_list`. -/
theorem C1_matched_eq_unique_add_duplicates (cfg : ProductConfig)
    (gs : List Granule) :
    matchedCount cfg gs
    = (detect_duplicates cfg gs).unique
      + (detect_duplicates cfg gs).duplicate_list.length :=
  detect_matched_eq cfg gs

/-- C2 as stated is false: on a run with one record whose identifier
does not match the pattern, `total` is 1 but `unique` and
`duplicate_list` are both empty. -/
theorem C2_total_counterexample :
    ¬ ((detect_duplicates noMatchConfig [⟨"g"⟩]).total
        = (detect_duplicates noMatchConfig [⟨"g"⟩]).unique
          + (detect_duplicates noMatchConfig [⟨"g"⟩]).duplicate_list.length) := by
  decide

/-- C2 amended: whenever every input record's identifier matches the
schema's pattern, the returned `total` (the count of all input records)
equals `unique` plus the length of `duplicate_list`. -/
theorem C2_total_eq_unique_add_duplicates_of_all_matched
    (cfg : ProductConfig) (gs : List Granule)
    (h : ∀ g ∈ gs, (cfg.pmatch g.granuleUR).isSome = true) :
    (detect_duplicates cfg gs).total
    = (detect_duplicates cfg gs).unique
      + (detect_duplicates cfg gs).duplicate_list.length := by
  have hm : matchedCount cfg gs = gs.length := by
    unfold matchedCount
    rw [List.filter_eq_self.mpr h]
  have ht : (detect_duplicates cfg gs).total = gs.length := by
    simp [detect_duplicates]
  rw [ht, ← hm]
  exact detect_matched_eq cfg gs

/-- Concrete instance of the amended C2 on a two-record run in which
every identifier matches. -/
theorem C2_total_witness :
    (∀ g ∈ [Granule.mk "a", Granule.mk "b"],
        (oneKeyConfig.pmatch g.granuleUR).isSome = true)
    ∧ (detect_duplicates oneKeyConfig [⟨"a"⟩, ⟨"b"⟩]).total
        = (detect_duplicates oneKeyConfig [⟨"a"⟩, ⟨"b"⟩]).unique
          + (detect_duplicates oneKeyConfig [⟨"a"⟩, ⟨"b"⟩]).duplicate_list.length :=
  ⟨by decide,
   C2_total_eq_unique_add_duplicates_of_all_matched oneKeyConfig
     [⟨"a"⟩, ⟨"b"⟩] (by decide)⟩

/-! ## Per-date bucket invariant -/

theorem bumpWith_of_present (f : Counts → Counts) (m : List (String × Counts))
    (d : String) (h : ((m.find? (fun p => p.1 == d)).isSome) = true) :
    bumpWith f m d = m.map (fun p => if p.1 == d then (p.1, f p.2) else p) := by
  simp [bumpWith, h]

/-- After bumping date `d`, an entry for `d` is present. -/
theorem find?_bumpWith_isSome (f : Counts → Counts) (m : List (String × Counts))
    (d : String) :
    ((bumpWith f m d).find? (fun p => p.1 == d)).isSome = true := by
  unfold bumpWith
  split
  · rename_i h
    rw [List.find?_map]
    have hcong :
        List.find? ((fun p : String × Counts => p.1 == d) ∘
          (fun p => if p.1 == d then (p.1, f p.2) else p)) m
        = List.find? (fun p : String × Counts => p.1 == d) m := by
      congr 1
      funext p
      by_cases hp : p.1 = d <;> simp [hp]
    rw [hcong]
    simpa using h
  · rw [List.find?_append]
    rename_i h
    have hnone : List.find? (fun p : String × Counts => p.1 == d) m = none := by
      cases hm : List.find? (fun p : String × Counts => p.1 == d) m with
      | none => rfl
      | some q => rw [hm] at h; simp at h
    rw [hnone]
    simp [List.find?]

/-- Every entry of `bumpWith f m d` is an untouched entry for another
date, a bumped existing entry for `d`, or a fresh bumped zero entry. -/
theorem mem_bumpWith (f : Counts → Counts) (m : List (String × Counts))
    (d : String) (p : String × Counts) (hp : p ∈ bumpWith f m d) :
    (p ∈ m ∧ p.1 ≠ d) ∨ (∃ c, (d, c) ∈ m ∧ p = (d, f c))
      ∨ p = (d, f ⟨0, 0, 0⟩) := by
  unfold bumpWith at hp
  split at hp
  · rcases List.mem_map.mp hp with ⟨q, hq, hqe⟩
    by_cases hqd : (q.1 == d) = true
    · right; left
      have hq1 : q.1 = d := by simpa using hqd
      refine ⟨q.2, ?_, ?_⟩
      · rw [← hq1]
        exact hq
      · rw [← hqe]
        simp [hqd, hq1]
    · left
      have hqe2 : p = q := by rw [← hqe]; simp [hqd]
      subst hqe2
      exact ⟨hq, by simpa using hqd⟩
  · rename_i h
    have hnone : List.find? (fun p : String × Counts => p.1 == d) m = none := by
      cases hm : List.find? (fun p : String × Counts => p.1 == d) m with
      | none => rfl
      | some q => rw [hm] at h; simp at h
    rcases List.mem_append.mp hp with h1 | h1
    · left
      refine ⟨h1, ?_⟩
      have := List.find?_eq_none.mp hnone p h1
      simpa using this
    · right; right
      simpa using h1

/-- The combined `total` bump plus `unique`/`duplicates` bump on the
same date key keeps every bucket balanced. -/
theorem balanced_bumpWith_pair (f : Counts → Counts)
    (m : List (String × Counts)) (d : String)
    (hf : ∀ c : Counts, c.total = c.unique + c.duplicates →
      (f (incTotal c)).total = (f (incTotal c)).unique + (f (incTotal c)).duplicates)
    (hb : ∀ p ∈ m, p.2.total = p.2.unique + p.2.duplicates) :
    ∀ p ∈ bumpWith f (bumpWith incTotal m d) d,
      p.2.total = p.2.unique + p.2.duplicates := by
  intro p hp
  rw [bumpWith_of_present f _ d (find?_bumpWith_isSome incTotal m d)] at hp
  rcases List.mem_map.mp hp with ⟨q, hq, hqe⟩
  rcases mem_bumpWith incTotal m d q hq with ⟨hqm, hqd⟩ | ⟨c, hcm, hce⟩ | hze
  · have hqd' : (q.1 == d) = false := by simpa using hqd
    rw [← hqe]
    simp only [hqd', Bool.false_eq_true, if_false]
    exact hb q hqm
  · subst hce
    rw [← hqe]
    simpa using hf c (hb (d, c) hcm)
  · subst hze
    rw [← hqe]
    simpa using hf ⟨0, 0, 0⟩ rfl

/-- Processing one granule keeps every `by_date` bucket balanced. -/
theorem processGranule_balanced (cfg : ProductConfig) (st : DupState) (g : String)
    (hb : ∀ p ∈ st.by_date, p.2.total = p.2.unique + p.2.duplicates) :
    ∀ p ∈ (processGranule cfg st g).by_date,
      p.2.total = p.2.unique + p.2.duplicates := by
  have hfU : ∀ c : Counts, c.total = c.unique + c.duplicates →
      (incUnique (incTotal c)).total
      = (incUnique (incTotal c)).unique + (incUnique (incTotal c)).duplicates := by
    intro c hc
    simp [incUnique, incTotal]
    omega
  have hfD : ∀ c : Counts, c.total = c.unique + c.duplicates →
      (incDuplicates (incTotal c)).total
      = (incDuplicates (incTotal c)).unique + (incDuplicates (incTotal c)).duplicates := by
    intro c hc
    simp [incDuplicates, incTotal]
    omega
  cases hm : cfg.pmatch g with
  | none => simpa [processGranule, hm] using hb
  | some fields =>
    simp only [processGranule, hm]
    cases hk : lookupKey st.unique_granules
        (cfg.unique_fields.map (fun f => getField fields f)) with
    | some existing =>
      cases hcf : cfg.creation_field with
      | some cf =>
        by_cases hlt : strLt existing.2 (getField fields cf) = true
        · simpa [hlt] using balanced_bumpWith_pair incDuplicates st.by_date _ hfD hb
        · simpa [hlt] using balanced_bumpWith_pair incDuplicates st.by_date _ hfD hb
      | none =>
        simpa using balanced_bumpWith_pair incDuplicates st.by_date _ hfD hb
    | none =>
      simpa using balanced_bumpWith_pair incUnique st.by_date _ hfU hb

/-- Over any starting state, the loop keeps every bucket balanced. -/
theorem foldl_balanced (cfg : ProductConfig) (ids : List String) (st : DupState)
    (hb : ∀ p ∈ st.by_date, p.2.total = p.2.unique + p.2.duplicates) :
    ∀ p ∈ (ids.foldl (processGranule cfg) st).by_date,
      p.2.total = p.2.unique + p.2.duplicates := by
  induction ids generalizing st with
  | nil => simpa using hb
  | cons g ids ih =>
    simp only [List.foldl_cons]
    exact ih (processGranule cfg st g) (processGranule_balanced cfg st g hb)

/-- C10: for every run of `detect_duplicates` and every date key present
in the returned `by_date` mapping, that bucket's total count equals its
unique count plus its duplicates count. -/
theorem C10_by_date_bucket_balanced (cfg : ProductConfig) (gs : List Granule)
    (entry : String × Counts)
    (h : entry ∈ (detect_duplicates cfg gs).by_date) :
    entry.2.total = entry.2.unique + entry.2.duplicates := by
  have hmem : entry ∈ (detectState cfg (gs.map Granule.granuleUR)).by_date := by
    have := h
    simp only [detect_duplicates] at this
    exact (mem_sortBy _ _ _).mp this
  exact foldl_balanced cfg (gs.map Granule.granuleUR) ⟨[], [], []⟩
    (by intro p hp; simp at hp) entry hmem

/-- Concrete instance of C10 on a three-record run with one duplicate. -/
theorem C10_by_date_witness :
    ("2026-01-01", Counts.mk 2 1 1)
        ∈ (detect_duplicates oneKeyConfig [⟨"a"⟩, ⟨"b"⟩]).by_date
    ∧ (2 : Nat) = 1 + 1 :=
  ⟨by decide,
   C10_by_date_bucket_balanced oneKeyConfig [⟨"a"⟩, ⟨"b"⟩]
     ("2026-01-01", Counts.mk 2 1 1) (by decide)⟩

/-! ## Tie-break behaviour on a two-record group -/

theorem strLt_irrefl (a : String) : strLt a a = false := by
  unfold strLt
  induction a.data with
  | nil => rfl
  | cons c cs ih => simp [ltChars, ih]

/-- On a run of two records that parse into the same uniqueness key,
with a creation field configured, the sole duplicate is the first record
when the second carries the strictly greater creation timestamp, and the
second record otherwise. -/
theorem two_run_duplicates (cfg : ProductConfig) (a b : String)
    (fa fb : List (String × String)) (cf : String)
    (hcf : cfg.creation_field = some cf)
    (ha : cfg.pmatch a = some fa) (hb : cfg.pmatch b = some fb)
    (hkey : cfg.unique_fields.map (fun f => getField fb f)
            = cfg.unique_fields.map (fun f => getField fa f)) :
    (detectState cfg [a, b]).all_duplicates
      = [if strLt (getField fa cf) (getField fb cf) then a else b] := by
  simp only [detectState, List.foldl_cons, List.foldl_nil]
  simp only [processGranule, ha, hb, hcf, lookupKey, List.find?_nil]
  simp only [hkey]
  simp only [Option.map_none', List.find?_cons, beq_self_eq_true]
  by_cases hlt : strLt (getField fa cf) (getField fb cf) = true <;> simp [hlt]

/-- C3: in a uniqueness-key group of two records with the creation field
configured, the record whose creation-timestamp string is
lexicographically greater survives (is absent from `duplicate_list`) and
the other record's identifier appears in `duplicate_list`. -/
theorem C3_greater_creation_ts_survives (cfg : ProductConfig) (a b : String)
    (fa fb : List (String × String)) (cf : String)
    (hcf : cfg.creation_field = some cf)
    (ha : cfg.pmatch a = some fa) (hb : cfg.pmatch b = some fb)
    (hkey : cfg.unique_fields.map (fun f => getField fb f)
            = cfg.unique_fields.map (fun f => getField fa f))
    (hgt : strLt (getField fa cf) (getField fb cf) = true
           ∨ strLt (getField fb cf) (getField fa cf) = true)
    (hab : a ≠ b) :
    (detect_duplicates cfg [⟨a⟩, ⟨b⟩]).duplicate_list
      = [if strLt (getField fa cf) (getField fb cf) then a else b]
    ∧ (if strLt (getField fa cf) (getField fb cf) then b else a)
        ∉ (detect_duplicates cfg [⟨a⟩, ⟨b⟩]).duplicate_list := by
  have hdup := two_run_duplicates cfg a b fa fb cf hcf ha hb hkey
  have hdl : (detect_duplicates cfg [⟨a⟩, ⟨b⟩]).duplicate_list
      = [if strLt (getField fa cf) (getField fb cf) then a else b] := by
    simp only [detect_duplicates, List.map_cons, List.map_nil]
    rw [hdup]
    rfl
  refine ⟨hdl, ?_⟩
  rw [hdl]
  by_cases hlt : strLt (getField fa cf) (getField fb cf) = true <;>
    simp [hlt, hab, Ne.symm hab]

/-- Concrete C3 instance: identifiers `"a"` and `"b"` share the key and
carry creation timestamps `"a" < "b"`, so `"a"` is the duplicate and
`"b"` survives. -/
theorem C3_greater_creation_ts_witness :
    (detect_duplicates oneKeyConfig [⟨"a"⟩, ⟨"b"⟩]).duplicate_list = ["a"]
    ∧ "b" ∉ (detect_duplicates oneKeyConfig [⟨"a"⟩, ⟨"b"⟩]).duplicate_list := by
  have h := C3_greater_creation_ts_survives oneKeyConfig "a" "b"
    [("k", "K"), ("ts", "a"), ("d", "20260101")]
    [("k", "K"), ("ts", "b"), ("d", "20260101")] "ts"
    rfl rfl rfl (by decide) (by decide) (by decide)
  have hc : strLt (getField [("k", "K"), ("ts", "a"), ("d", "20260101")] "ts")
      (getField [("k", "K"), ("ts", "b"), ("d", "20260101")] "ts") = true := by decide
  rw [hc] at h
  simpa using h

/-- C4: when the two records of a uniqueness-key group carry exactly
equal creation-timestamp strings, the first-encountered record survives
and the later-encountered record's identifier is appended to
`duplicate_list`. -/
theorem C4_equal_creation_ts_first_seen_wins (cfg : ProductConfig) (a b : String)
    (fa fb : List (String × String)) (cf : String)
    (hcf : cfg.creation_field = some cf)
    (ha : cfg.pmatch a = some fa) (hb : cfg.pmatch b = some fb)
    (hkey : cfg.unique_fields.map (fun f => getField fb f)
            = cfg.unique_fields.map (fun f => getField fa f))
    (hts : getField fa cf = getField fb cf)
    (hab : a ≠ b) :
    (detect_duplicates cfg [⟨a⟩, ⟨b⟩]).duplicate_list = [b]
    ∧ a ∉ (detect_duplicates cfg [⟨a⟩, ⟨b⟩]).duplicate_list := by
  have hdup := two_run_duplicates cfg a b fa fb cf hcf ha hb hkey
  rw [hts, strLt_irrefl] at hdup
  have hdl : (detect_duplicates cfg [⟨a⟩, ⟨b⟩]).duplicate_list = [b] := by
    simp only [detect_duplicates, List.map_cons, List.map_nil]
    rw [hdup]
    rfl
  refine ⟨hdl, ?_⟩
  rw [hdl]
  simp [hab]

/-- Concrete C4 instance: two distinct identifiers with identical
creation timestamps; the second is the duplicate, the first survives. -/
theorem C4_equal_creation_ts_witness :
    (detect_duplicates tieConfig [⟨"a"⟩, ⟨"b"⟩]).duplicate_list = ["b"]
    ∧ "a" ∉ (detect_duplicates tieConfig [⟨"a"⟩, ⟨"b"⟩]).duplicate_list :=
  C4_equal_creation_ts_first_seen_wins tieConfig "a" "b"
    [("k", "K"), ("ts", "T"), ("d", "20260101")]
    [("k", "K"), ("ts", "T"), ("d", "20260101")] "ts"
    rfl rfl rfl (by decide) (by decide) (by decide)

/-! ## Accountability reconciler -/

/-- C5: for every pair of output-record and input-record lists,
`analyze_accountability` returns a result in which `expected` equals
`actual` plus `missing_count`. -/
theorem C5_expected_eq_actual_add_missing (cfg : AccConfig)
    (dswx : List DswxGranule) (hls : List HlsGranule) :
    (analyze_accountability cfg dswx hls).expected
    = (analyze_accountability cfg dswx hls).actual
      + (analyze_accountability cfg dswx hls).missing_count := by
  simp only [analyze_accountability]
  omega

theorem filtered_mono (cfg : AccConfig) (H : List HlsGranule)
    (st : List String × List (String × List String)) (x : String)
    (hx : x ∈ st.1) : x ∈ (H.foldl (hlsStep cfg) st).1 := by
  induction H generalizing st with
  | nil => simpa using hx
  | cons g H ih =>
    simp only [List.foldl_cons]
    apply ih
    unfold hlsStep
    split
    · exact hx
    · exact List.mem_append_left _ hx

/-- C6: an input record tagged `LANDSAT-9` whose temporal field is
strictly before the cutoff contributes nothing to the result (so its
identifier appears in none of the expected set, the actual count, or
`missing`); one tagged `LANDSAT-9` at or after the cutoff is included
in the expected set (the `filtered_hls` list, whose length is
`expected`). -/
theorem C6_l9_cutoff_exclusion (cfg : AccConfig) (dswx : List DswxGranule)
    (H1 H2 : List HlsGranule) (g : HlsGranule) :
    ("LANDSAT-9" ∈ g.platforms ∧ cfg.beforeCutoff g.beginningDateTime = true →
      analyze_accountability cfg dswx (H1 ++ g :: H2)
        = analyze_accountability cfg dswx (H1 ++ H2))
    ∧ ("LANDSAT-9" ∈ g.platforms ∧ cfg.beforeCutoff g.beginningDateTime = false →
      g.granuleUR ∈ (accState cfg dswx (H1 ++ g :: H2)).1) := by
  constructor
  · rintro ⟨hp, hc⟩
    have hskip : ∀ st, hlsStep cfg st g = st := by
      intro st
      have hcont : g.platforms.contains "LANDSAT-9" = true :=
        List.elem_eq_true_of_mem hp
      unfold hlsStep
      rw [hcont, hc]
      simp
    have hst : accState cfg dswx (H1 ++ g :: H2) = accState cfg dswx (H1 ++ H2) := by
      unfold accState
      rw [List.foldl_append, List.foldl_append, List.foldl_cons, hskip]
    unfold analyze_accountability
    rw [hst]
  · rintro ⟨hp, hc⟩
    unfold accState
    rw [List.foldl_append, List.foldl_cons]
    apply filtered_mono
    unfold hlsStep
    rw [hc]
    simp

/-- Concrete C6 instance: a pre-cutoff LANDSAT-9 granule leaves the
result unchanged, and a LANDSAT-9 granule at or after the cutoff enters
the expected set. -/
theorem C6_l9_cutoff_witness :
    (("LANDSAT-9" ∈ ["LANDSAT-9"]
        ∧ accConfigW.beforeCutoff "2025-09-30T18:38:21+00:00" = true)
      ∧ analyze_accountability accConfigW []
          [⟨"HLS.L30.T1.v2.0", "2025-09-30T18:38:21+00:00", ["LANDSAT-9"]⟩]
        = analyze_accountability accConfigW [] [])
    ∧ (("LANDSAT-9" ∈ ["LANDSAT-9"]
        ∧ accConfigW.beforeCutoff "2026-01-01T18:38:21+00:00" = false)
      ∧ "HLS.L30.T1.v2.0"
          ∈ (accState accConfigW []
              [⟨"HLS.L30.T1.v2.0", "2026-01-01T18:38:21+00:00", ["LANDSAT-9"]⟩]).1) := by
  refine ⟨⟨⟨by decide, by decide⟩, ?_⟩, ⟨by decide, by decide⟩, ?_⟩
  · exact (C6_l9_cutoff_exclusion accConfigW [] []
        [] ⟨"HLS.L30.T1.v2.0", "2025-09-30T18:38:21+00:00", ["LANDSAT-9"]⟩).1
      ⟨by decide, by decide⟩
  · exact (C6_l9_cutoff_exclusion accConfigW [] []
        [] ⟨"HLS.L30.T1.v2.0", "2026-01-01T18:38:21+00:00", ["LANDSAT-9"]⟩).2
      ⟨by decide, by decide⟩

/-! ## Band-suffix normalization -/

theorem stripBandSuffix_fmask (X : String) :
    stripBandSuffix (X ++ ".Fmask.tif") = X := by
  unfold stripBandSuffix stripBandSuffixL
  have hd : (X ++ ".Fmask.tif").data
      = X.data ++ ['.', 'F', 'm', 'a', 's', 'k', '.', 't', 'i', 'f'] := by
    rw [String.data_append]
  rw [hd, List.reverse_append]
  simp

theorem stripBandSuffix_band (X : String) (x y : Char)
    (hx : x.isAlphanum = true) (hy : y.isAlphanum = true) :
    stripBandSuffix (X ++ ⟨['.', 'B', x, y, '.', 't', 'i', 'f']⟩) = X := by
  unfold stripBandSuffix stripBandSuffixL
  have hd : (X ++ ⟨['.', 'B', x, y, '.', 't', 'i', 'f']⟩).data
      = X.data ++ ['.', 'B', x, y, '.', 't', 'i', 'f'] := by
    rw [String.data_append]
  rw [hd, List.reverse_append]
  simp [hx, hy]

theorem basename_of_no_slash (s : String) (h : ('/' : Char) ∉ s.data) :
    basename s = s := by
  unfold basename
  have ht : s.data.reverse.takeWhile (fun c => c != '/') = s.data.reverse := by
    rw [List.takeWhile_eq_self_iff]
    intro c hc
    have : c ∈ s.data := List.mem_reverse.mp hc
    have : c ≠ '/' := fun he => h (he ▸ this)
    simpa using this
  rw [ht, List.reverse_reverse]

/-- C9: an output record whose referenced input filenames differ only by
a band or Fmask suffix on the same logical input contributes exactly one
entry to the input-to-output mapping: all three suffixed files normalize
to the one canonical identifier `X`. -/
theorem C9_band_files_one_entry (cfg : AccConfig) (gid X : String)
    (hX : ('/' : Char) ∉ X.data) (hm : cfg.hlsMatch X = true) :
    mapInputs cfg [⟨gid, [X ++ ".B02.tif", X ++ ".B03.tif", X ++ ".Fmask.tif"]⟩]
      = [(X, [gid, gid, gid])] := by
  have hslash : ∀ s : String, ('/' : Char) ∉ s.data → basename (X ++ s) = X ++ s := by
    intro s hs
    apply basename_of_no_slash
    rw [String.data_append]
    intro hmem
    rcases List.mem_append.mp hmem with h | h
    · exact hX h
    · exact hs h
  have h1 : stripBandSuffix (basename (X ++ ".B02.tif")) = X := by
    rw [hslash _ (by decide)]
    rw [show (".B02.tif" : String) = ⟨['.', 'B', '0', '2', '.', 't', 'i', 'f']⟩ from rfl]
    exact stripBandSuffix_band X '0' '2' (by decide) (by decide)
  have h2 : stripBandSuffix (basename (X ++ ".B03.tif")) = X := by
    rw [hslash _ (by decide)]
    rw [show (".B03.tif" : String) = ⟨['.', 'B', '0', '3', '.', 't', 'i', 'f']⟩ from rfl]
    exact stripBandSuffix_band X '0' '3' (by decide) (by decide)
  have h3 : stripBandSuffix (basename (X ++ ".Fmask.tif")) = X := by
    rw [hslash _ (by decide)]
    exact stripBandSuffix_fmask X
  simp only [mapInputs, List.foldl_cons, List.foldl_nil]
  rw [h1, h2, h3, hm]
  simp [addInput, List.find?]

/-- Concrete C9 instance: the three band files of one HLS granule map to
a single entry listing the DSWx output three times. -/
theorem C9_band_files_witness :
    (('/' : Char) ∉ ("HLS.S30.T1.v2.0" : String).data)
    ∧ accConfigW.hlsMatch "HLS.S30.T1.v2.0" = true
    ∧ mapInputs accConfigW
        [⟨"D1", ["HLS.S30.T1.v2.0" ++ ".B02.tif", "HLS.S30.T1.v2.0" ++ ".B03.tif",
                 "HLS.S30.T1.v2.0" ++ ".Fmask.tif"]⟩]
      = [("HLS.S30.T1.v2.0", ["D1", "D1", "D1"])] :=
  ⟨by decide, by decide,
   C9_band_files_one_entry accConfigW "D1" "HLS.S30.T1.v2.0" (by decide) (by decide)⟩

/-! ## CMR client retry policy -/

/-- One-step unfolding of the retry loop on a failing attempt. -/
theorem retryRequest_failure_cons (st : Option Nat) (rest : List Attempt)
    (elapsed : Nat) :
    retryRequest (.failure st :: rest) elapsed
    = if giveupOn st then .raised st
      else if 300 ≤ elapsed then .raised st
      else retryRequest rest (elapsed + min 15 (300 - elapsed)) := rfl

/-- C7 as stated is false: HTTP 401 is a 4xx status other than 429, yet
`_fatal_code` classifies it as retryable, so the wrapped request is
retried (here succeeding on the second attempt) instead of failing
immediately. -/
theorem C7_counterexample :
    (400 ≤ 401 ∧ 401 < 500 ∧ 401 ≠ 429)
    ∧ fatal_code 401 = false
    ∧ retryRequest [.failure (some 401), .success ["page"] none] 0
        = .page ["page"] none := by
  decide

/-- C7 amended: on an HTTP 4xx status other than 401, 418 and 429, the
client fails immediately — `_fatal_code` reports it fatal and the first
failing attempt is propagated with no retry. -/
theorem C7_fourxx_fails_immediately (s : Nat) (h4 : 400 ≤ s) (h5 : s < 500)
    (h401 : s ≠ 401) (h418 : s ≠ 418) (h429 : s ≠ 429) :
    fatal_code s = true
    ∧ ∀ (rest : List Attempt) (elapsed : Nat),
        retryRequest (.failure (some s) :: rest) elapsed = .raised (some s) := by
  have hmem : s ∉ [401, 418, 429, 500, 502, 503, 504] := by
    intro hs
    fin_cases hs <;> omega
  have hf : fatal_code s = true := by
    unfold fatal_code
    cases hc : List.contains [401, 418, 429, 500, 502, 503, 504] s with
    | false => rfl
    | true => exact absurd (List.mem_of_elem_eq_true hc) hmem
  refine ⟨hf, fun rest elapsed => ?_⟩
  have hg : giveupOn (some s) = true := hf
  rw [retryRequest_failure_cons, hg]
  simp

/-- Concrete instance of the amended C7: HTTP 404 is propagated
immediately even though a success was available on the next attempt. -/
theorem C7_fourxx_witness :
    (400 ≤ 404 ∧ 404 < 500 ∧ 404 ≠ 401 ∧ 404 ≠ 418 ∧ 404 ≠ 429)
    ∧ fatal_code 404 = true
    ∧ retryRequest [.failure (some 404), .success ["page"] none] 0
        = .raised (some 404) := by
  refine ⟨by decide, ?_, ?_⟩
  · exact (C7_fourxx_fails_immediately 404 (by decide) (by decide) (by decide)
      (by decide) (by decide)).1
  · exact (C7_fourxx_fails_immediately 404 (by decide) (by decide) (by decide)
      (by decide) (by decide)).2 [.success ["page"] none] 0

/-- C8 as stated is false: HTTP 501 is a 5xx status, yet `_fatal_code`
classifies it as fatal and the request fails immediately (even with a
success available on the next attempt) instead of being retried. -/
theorem C8_counterexample :
    (500 ≤ 501 ∧ 501 < 600)
    ∧ fatal_code 501 = true
    ∧ retryRequest [.failure (some 501), .success ["page"] none] 0
        = .raised (some 501) := by
  decide

/-- C8 amended: exactly on HTTP 401, 418, 429, 500, 502, 503 and 504 the
client retries the same request with constant 15-second backoff, each
wait capped so the total elapsed time never exceeds 300 seconds; once
300 seconds have elapsed the last error is raised, and a failure chain
long enough to exhaust the time budget (21 attempts) ends in the error
being raised. -/
theorem C8_retryable_constant_backoff (s : Nat)
    (h : s ∈ [401, 418, 429, 500, 502, 503, 504]) :
    fatal_code s = false
    ∧ (∀ (rest : List Attempt) (elapsed : Nat), elapsed < 300 →
        retryRequest (.failure (some s) :: rest) elapsed
          = retryRequest rest (elapsed + min 15 (300 - elapsed)))
    ∧ (∀ (rest : List Attempt) (elapsed : Nat), 300 ≤ elapsed →
        retryRequest (.failure (some s) :: rest) elapsed = .raised (some s))
    ∧ retryRequest (List.replicate 21 (.failure (some s))) 0 = .raised (some s) := by
  have hf : fatal_code s = false := by
    fin_cases h <;> decide
  refine ⟨hf, ?_, ?_, ?_⟩
  · intro rest elapsed he
    have hg : giveupOn (some s) = false := hf
    rw [retryRequest_failure_cons, hg]
    simp [Nat.not_le.mpr he]
  · intro rest elapsed he
    have hg : giveupOn (some s) = false := hf
    rw [retryRequest_failure_cons, hg]
    simp [he]
  · fin_cases h <;> decide

/-- Concrete instance of the amended C8 at HTTP 503: one retry after a
15-second wait, immediate raise once 300 seconds have elapsed, and raise
after a 21-failure chain. -/
theorem C8_retryable_witness :
    (503 ∈ [401, 418, 429, 500, 502, 503, 504])
    ∧ fatal_code 503 = false
    ∧ retryRequest [.failure (some 503), .success ["page"] none] 0
        = retryRequest [.success ["page"] none] (0 + min 15 (300 - 0))
    ∧ retryRequest [.failure (some 503)] 300 = .raised (some 503)
    ∧ retryRequest (List.replicate 21 (.failure (some 503))) 0
        = .raised (some 503) := by
  have h := C8_retryable_constant_backoff 503 (by decide)
  exact ⟨by decide, h.1, h.2.1 [.success ["page"] none] 0 (by decide),
    h.2.2.1 [] 300 (by decide), h.2.2.2⟩

end OperaAudit
